import Mathlib

/-!  Formal model of the face_rec_rk3588 video-analytics core.

The definitions below are a shallow embedding of the repository's Python
sources:

* `ModelPool`, `ModelPool.acquire`, `ModelPool.release` embed the
  thread-safe model pool of `app/core/model_manager.py` (lines 30-74).
  A `ResourceSet` (a paired detector+recognizer handle) is represented by
  an abstract identifier; the internal `queue.Queue` is a FIFO list.
* `FaceStreamPipeline` and `FaceStreamPipeline.stop` embed the per-session
  pipeline state and its shutdown path of `app/core/pipeline.py`
  (lines 31-109); the four stage threads are embedded as run-to-completion
  functions over queue contents (`readerRun`, `preprocessorRun`,
  `inferenceRun`, `postRun`), with queue-full nondeterminism exposed as
  explicit oracles/schedules.
* `startStream` embeds `StreamManagerService.start_stream` of
  `app/service/stream_manager_service.py` (lines 30-73).
* `align_and_crop` and its helpers embed `app/core/image_utils.py`
  (lines 36-91), with Python floats embedded as exact rationals and
  `cv2.estimateAffinePartial2D` abstracted as an external function.
-/

namespace FaceRec

/-! ## Resource pool (`app/core/model_manager.py`) -/

/-- A ResourceSet: one paired detector+recognizer handle, identified
abstractly (the handles themselves are opaque external objects). -/
abbrev ResourceSet := Nat

/-- State of `ModelPool`: `pool_size` is the fixed capacity, `available`
embeds the internal FIFO `queue.Queue` of free sets, and `checkedOut` is
the (ghost) collection of sets currently held by sessions. -/
structure ModelPool where
  pool_size : Nat
  available : List ResourceSet
  checkedOut : List ResourceSet
deriving DecidableEq, Repr

/-- Freshly constructed pool (`ModelPool.__init__`): `pool_size` distinct
sets are loaded and put into the internal queue; nothing is checked out. -/
def ModelPool.init (C : Nat) : ModelPool :=
  { pool_size := C, available := List.range C, checkedOut := [] }

/-- Embeds `ModelPool.acquire` (model_manager.py lines 57-68): `get` with a
timeout pops the front of the FIFO; on `queue.Empty` (timeout with nothing
available) it returns `None` and the pool is untouched. -/
def ModelPool.acquire (p : ModelPool) : Option ResourceSet × ModelPool :=
  match p.available with
  | [] => (none, p)
  | r :: rest =>
      (some r, { p with available := rest, checkedOut := r :: p.checkedOut })

/-- Embeds `ModelPool.release` (model_manager.py lines 70-74): `put` appends
the returned set at the back of the FIFO. -/
def ModelPool.release (p : ModelPool) (r : ResourceSet) : ModelPool :=
  { p with available := p.available ++ [r], checkedOut := p.checkedOut.erase r }

/-- One pool operation of an interleaving: an `acquire` attempt (which may
time out) or a `release` of a given set. -/
inductive PoolOp where
  | acquireOp
  | releaseOp (r : ResourceSet)
deriving DecidableEq, Repr

/-- Effect of one operation on the pool. -/
def applyOp (p : ModelPool) : PoolOp → ModelPool
  | .acquireOp => (p.acquire).2
  | .releaseOp r => p.release r

/-- Run a whole sequence of operations. -/
def runOps (p : ModelPool) : List PoolOp → ModelPool
  | [] => p
  | op :: ops => runOps (applyOp p op) ops

/-- Legality of one operation: a release must return a set previously
obtained from acquire (i.e. currently checked out). -/
def legalOpB (p : ModelPool) : PoolOp → Bool
  | .acquireOp => true
  | .releaseOp r => decide (r ∈ p.checkedOut)

/-- Legality of a whole interleaving, checked state by state. -/
def legalTraceB (p : ModelPool) : List PoolOp → Bool
  | [] => true
  | op :: ops => legalOpB p op && legalTraceB (applyOp p op) ops

theorem applyOp_pool_size (p : ModelPool) (op : PoolOp) :
    (applyOp p op).pool_size = p.pool_size := by
  cases op with
  | acquireOp =>
      cases hav : p.available <;> simp [applyOp, ModelPool.acquire, hav]
  | releaseOp r => simp [applyOp, ModelPool.release]

theorem runOps_pool_size (ops : List PoolOp) :
    ∀ p : ModelPool, (runOps p ops).pool_size = p.pool_size := by
  induction ops with
  | nil => intro p; simp [runOps]
  | cons op ops ih =>
      intro p
      rw [runOps, ih, applyOp_pool_size]

theorem inv_step (p : ModelPool) (op : PoolOp) (hleg : legalOpB p op = true)
    (h : p.checkedOut.length + p.available.length = p.pool_size) :
    (applyOp p op).checkedOut.length + (applyOp p op).available.length
      = (applyOp p op).pool_size := by
  cases op with
  | acquireOp =>
      cases hav : p.available with
      | nil =>
          rw [hav] at h
          simp only [applyOp, ModelPool.acquire, hav, List.length_nil] at *
          omega
      | cons r rest =>
          rw [hav] at h
          simp only [applyOp, ModelPool.acquire, hav, List.length_cons] at *
          omega
  | releaseOp r =>
      have hr : r ∈ p.checkedOut := of_decide_eq_true hleg
      have hpos : 0 < p.checkedOut.length := List.length_pos_of_mem hr
      simp only [applyOp, ModelPool.release, List.length_append,
        List.length_erase_of_mem hr, List.length_singleton]
      omega

theorem inv_run (ops : List PoolOp) :
    ∀ p : ModelPool, legalTraceB p ops = true →
      p.checkedOut.length + p.available.length = p.pool_size →
      (runOps p ops).checkedOut.length + (runOps p ops).available.length
        = (runOps p ops).pool_size := by
  induction ops with
  | nil => intro p _ h; simpa [runOps] using h
  | cons op ops ih =>
      intro p hleg h
      rw [legalTraceB, Bool.and_eq_true] at hleg
      exact ih _ hleg.2 (inv_step p op hleg.1 h)

/-- C1: For the resource pool of fixed capacity `C`, every interleaving of
acquire and release calls (each release returning a set previously obtained
from acquire) preserves the invariant that the number of checked-out
ResourceSets plus the number of available ResourceSets equals `C`; and a
timed-out acquire (pool empty) leaves the pool — in particular both
counts — unchanged. -/
theorem pool_invariant (C : Nat) (ops : List PoolOp) (p : ModelPool)
    (hleg : legalTraceB (ModelPool.init C) ops = true)
    (hempty : p.available = []) :
    (runOps (ModelPool.init C) ops).checkedOut.length
        + (runOps (ModelPool.init C) ops).available.length = C
    ∧ p.acquire = (none, p) := by
  constructor
  · have h0 : (ModelPool.init C).checkedOut.length
        + (ModelPool.init C).available.length = (ModelPool.init C).pool_size := by
      simp [ModelPool.init]
    have := inv_run ops (ModelPool.init C) hleg h0
    rwa [runOps_pool_size] at this
  · simp [ModelPool.acquire, hempty]

/-- Witness for C1 at capacity 2 with the trace
acquire, acquire, acquire (times out), release 0. -/
theorem pool_invariant_witness :
    (legalTraceB (ModelPool.init 2)
        [PoolOp.acquireOp, PoolOp.acquireOp, PoolOp.acquireOp,
         PoolOp.releaseOp 0] = true)
    ∧ ((runOps (ModelPool.init 2)
          [PoolOp.acquireOp, PoolOp.acquireOp, PoolOp.acquireOp,
           PoolOp.releaseOp 0]).checkedOut.length
        + (runOps (ModelPool.init 2)
            [PoolOp.acquireOp, PoolOp.acquireOp, PoolOp.acquireOp,
             PoolOp.releaseOp 0]).available.length = 2
      ∧ (ModelPool.mk 2 [] [1, 0]).acquire = (none, ModelPool.mk 2 [] [1, 0])) :=
  ⟨by decide,
   pool_invariant 2
     [PoolOp.acquireOp, PoolOp.acquireOp, PoolOp.acquireOp, PoolOp.releaseOp 0]
     (ModelPool.mk 2 [] [1, 0]) (by decide) rfl⟩

/-! ## Per-session pipeline state and shutdown (`app/core/pipeline.py`) -/

/-- A frame, tracked by identity through annotation and JPEG encoding. -/
abbrev Frame := Nat

/-- Embeds the `while not q.empty(): q.get_nowait()` drain loops of
`FaceStreamPipeline.stop` (pipeline.py lines 96-99). -/
def drainAll : List Frame → List Frame
  | [] => []
  | _ :: rest => drainAll rest

theorem drainAll_eq_nil (l : List Frame) : drainAll l = [] := by
  induction l with
  | nil => rfl
  | cons x rest ih => rw [drainAll, ih]

/-- State of one `FaceStreamPipeline` (pipeline.py lines 31-46): the stop
event, the optionally-owned ResourceSet (`self.models`), whether the video
capture is open, the three bounded intermediate queues and the session's
output queue (queue contents as lists, front = next to dequeue). -/
structure FaceStreamPipeline where
  stop_event : Bool
  models : Option ResourceSet
  capIsOpen : Bool
  preprocess_queue : List Frame
  inference_queue : List Frame
  postprocess_queue : List Frame
  output_queue : List Frame
deriving DecidableEq, Repr

/-- Embeds `FaceStreamPipeline.stop` (pipeline.py lines 77-109).  If the
stop event is already set it returns immediately (line 79).  Otherwise it
sets the stop event, joins each stage thread with a bounded timeout (the
join outcomes `_joins` have no effect on state — a timed-out join is only
logged), releases the video capture, drains the three intermediate queues
(the output queue is not in the drained list, line 96), and returns the
owned ResourceSet to the pool iff `self.models` is set (lines 102-107).
Both call sites — `StreamManagerService.stop_stream` and the driver's
`finally` block in `FaceStreamPipeline.start` — invoke this same method. -/
def FaceStreamPipeline.stop (st : FaceStreamPipeline) (pool : ModelPool)
    ( _joins : List Bool) : FaceStreamPipeline × ModelPool :=
  if st.stop_event then (st, pool)
  else
    match st.models with
    | some m =>
        ({ stop_event := true, models := none, capIsOpen := false,
           preprocess_queue := drainAll st.preprocess_queue,
           inference_queue := drainAll st.inference_queue,
           postprocess_queue := drainAll st.postprocess_queue,
           output_queue := st.output_queue }, pool.release m)
    | none =>
        ({ stop_event := true, models := none, capIsOpen := false,
           preprocess_queue := drainAll st.preprocess_queue,
           inference_queue := drainAll st.inference_queue,
           postprocess_queue := drainAll st.postprocess_queue,
           output_queue := st.output_queue }, pool)

/-- C2: For every session whose engine successfully acquired a ResourceSet
(`st.models = some m`) and whose stop has not already begun, completion of
`stop()` returns that set to the pool — pool availability grows by exactly
one slot — regardless of the join outcomes of the stage threads (the
`joins` argument is arbitrary), and irrespective of the call site, since
the manager and the engine's own driver invoke this same `stop`. -/
theorem stop_releases_resource (st : FaceStreamPipeline) (pool : ModelPool)
    (joins : List Bool) (m : ResourceSet)
    (hm : st.models = some m) (hs : st.stop_event = false) :
    ((st.stop pool joins).2).available.length = pool.available.length + 1
    ∧ (st.stop pool joins).1.models = none := by
  simp [FaceStreamPipeline.stop, hs, hm, ModelPool.release]

/-- Witness for C2: a concrete running session owning set 0 over a
capacity-1 pool with nothing available. -/
theorem stop_releases_resource_witness :
    ((FaceStreamPipeline.stop
        ⟨false, some 0, true, [], [], [], []⟩ ⟨1, [], [0]⟩ [true, false]).2).available.length
      = (ModelPool.mk 1 [] [0]).available.length + 1
    ∧ (FaceStreamPipeline.stop
        ⟨false, some 0, true, [], [], [], []⟩ ⟨1, [], [0]⟩ [true, false]).1.models = none :=
  stop_releases_resource ⟨false, some 0, true, [], [], [], []⟩ ⟨1, [], [0]⟩
    [true, false] 0 rfl rfl

/-- C9 counterexample: the claim says that after `stop()` completes, the
session's output queue is empty, but `stop` only drains the three
intermediate queues (pipeline.py line 96 lists exactly
`preprocess_queue, inference_queue, postprocess_queue`).  Concretely, a
pipeline whose output queue holds one frame keeps it across `stop()`. -/
theorem stop_output_queue_cex :
    (FaceStreamPipeline.stop
        ⟨false, none, true, [1], [2], [3], [7]⟩ (ModelPool.init 0) []).1.output_queue = [7]
    ∧ [7] ≠ ([] : List Frame) := by
  constructor
  · rfl
  · decide

/-- C9 (amended): After an effective `stop()` (stop event not already set),
the three intermediate queues are drained empty; the session's output queue
is not drained — it is left exactly as it was. -/
theorem stop_drains_intermediate_queues (st : FaceStreamPipeline)
    (pool : ModelPool) (joins : List Bool) (hs : st.stop_event = false) :
    (st.stop pool joins).1.preprocess_queue = []
    ∧ (st.stop pool joins).1.inference_queue = []
    ∧ (st.stop pool joins).1.postprocess_queue = []
    ∧ (st.stop pool joins).1.output_queue = st.output_queue := by
  cases hm : st.models <;>
    simp [FaceStreamPipeline.stop, hs, hm, drainAll_eq_nil]

/-- Witness for the amended C9 on a concrete loaded pipeline. -/
theorem stop_drains_intermediate_queues_witness :
    (FaceStreamPipeline.stop
        ⟨false, some 0, true, [1, 2], [3], [4], [7]⟩ (ModelPool.init 1) []).1.preprocess_queue = []
    ∧ (FaceStreamPipeline.stop
        ⟨false, some 0, true, [1, 2], [3], [4], [7]⟩ (ModelPool.init 1) []).1.inference_queue = []
    ∧ (FaceStreamPipeline.stop
        ⟨false, some 0, true, [1, 2], [3], [4], [7]⟩ (ModelPool.init 1) []).1.postprocess_queue = []
    ∧ (FaceStreamPipeline.stop
        ⟨false, some 0, true, [1, 2], [3], [4], [7]⟩ (ModelPool.init 1) []).1.output_queue
        = (FaceStreamPipeline.mk false (some 0) true [1, 2] [3] [4] [7]).output_queue :=
  stop_drains_intermediate_queues ⟨false, some 0, true, [1, 2], [3], [4], [7]⟩
    (ModelPool.init 1) [] rfl

/-- C10: `stop()` is idempotent — the first call sets the stop flag, and a
second call (with any join outcomes) is a no-op on both the engine state
and the pool; consequently the owned ResourceSet reaches the pool at most
once per session and pool availability grows by at most one slot per
session, never inflating beyond capacity. -/
theorem stop_idempotent (st : FaceStreamPipeline) (pool : ModelPool)
    (js1 js2 : List Bool) :
    ((st.stop pool js1).1).stop ((st.stop pool js1).2) js2 = st.stop pool js1
    ∧ (st.stop pool js1).2.available.length ≤ pool.available.length + 1 := by
  by_cases hs : st.stop_event
  · constructor
    · simp [FaceStreamPipeline.stop, hs]
    · simp [FaceStreamPipeline.stop, hs]
  · cases hm : st.models <;>
      simp [FaceStreamPipeline.stop, hs, hm, ModelPool.release]

/-! ## Stream manager start path (`app/service/stream_manager_service.py`) -/

/-- Registry state of `StreamManagerService`: the shared pool and the ids
held in the `active_streams` registry. -/
structure StreamManager where
  pool : ModelPool
  active_streams : List Nat
deriving DecidableEq, Repr

/-- A fresh manager over a fresh pool of capacity `C`. -/
def initManager (C : Nat) : StreamManager :=
  { pool := ModelPool.init C, active_streams := [] }

/-- Timeout of the driver's pool acquisition:
`self.model_pool.acquire(timeout=5.0)` at pipeline.py line 51. -/
def ACQUIRE_TIMEOUT : ℚ := 5

/-- Grace window of the manager's liveness check:
`await asyncio.sleep(0.2)` at stream_manager_service.py line 61. -/
def GRACE_WINDOW : ℚ := 1 / 5

/-- Outcome of `start_stream`: the session was registered and returned as
a success, or the HTTP 503 service-busy failure was raised. -/
inductive StartResult where
  | started (sid : Nat)
  | serviceBusy
deriving DecidableEq, Repr

/-- Whether a start outcome is a successful registration. -/
def StartResult.isStarted : StartResult → Bool
  | .started _ => true
  | .serviceBusy => false

/-- Fate of the driver thread during startup: it reaches the running loop,
or it terminates `t` seconds after being started. -/
inductive DriverFate where
  | running
  | diesAt (t : ℚ)
deriving DecidableEq, Repr

/-- Embeds the startup of `FaceStreamPipeline.start` run on the driver
thread (pipeline.py lines 48-75), with its timing.  With the pool
exhausted, `acquire(timeout=5.0)` keeps the driver blocked inside
`Queue.get` for the full `ACQUIRE_TIMEOUT` before returning `None`, after
which the driver returns (its `finally` stop() has nothing to release) —
so the driver dies at t = 5.  With a set available, acquire returns at
once; a source-open failure then raises after the `cv2.VideoCapture` call,
which takes `sourceOpenTime`, and the `finally` stop() releases the set;
on success the driver keeps the set and enters the supervision loop. -/
def driverStartup (pool : ModelPool) (sourceOk : Bool) (sourceOpenTime : ℚ) :
    DriverFate × ModelPool :=
  match pool.acquire with
  | (none, p1) => (.diesAt ACQUIRE_TIMEOUT, p1)
  | (some m, p1) =>
      if sourceOk then (.running, p1)
      else (.diesAt sourceOpenTime, p1.release m)

/-- Embeds `StreamManagerService.start_stream` (stream_manager_service.py
lines 30-73): start the driver thread, sleep the 0.2-second grace window,
then check `process_thread.is_alive()` — only when the driver has already
died within the grace window is the 503 service-busy failure raised;
otherwise the session is registered in `active_streams` and returned as a
success, whatever the driver does afterwards. -/
def start_stream (mgr : StreamManager) (sid : Nat) (sourceOk : Bool)
    (sourceOpenTime : ℚ) : StartResult × StreamManager :=
  match driverStartup mgr.pool sourceOk sourceOpenTime with
  | (.running, p1) =>
      (.started sid, { pool := p1, active_streams := mgr.active_streams ++ [sid] })
  | (.diesAt t, p1) =>
      if t ≤ GRACE_WINDOW then
        (.serviceBusy, { mgr with pool := p1 })
      else
        (.started sid, { pool := p1, active_streams := mgr.active_streams ++ [sid] })

/-- Sequentialised start of several sessions, each with a healthy,
instantly-opening source. -/
def startMany (mgr : StreamManager) : List Nat → List StartResult × StreamManager
  | [] => ([], mgr)
  | sid :: rest =>
      let r1 := start_stream mgr sid true 0
      let rs := startMany r1.2 rest
      (r1.1 :: rs.1, rs.2)

theorem start_stream_true_started (mgr : StreamManager) (sid : Nat) :
    (start_stream mgr sid true 0).1 = StartResult.started sid
    ∧ (start_stream mgr sid true 0).2.active_streams
        = mgr.active_streams ++ [sid] := by
  cases hav : mgr.pool.available with
  | nil =>
      have hng : ¬ ACQUIRE_TIMEOUT ≤ GRACE_WINDOW := by
        rw [ACQUIRE_TIMEOUT, GRACE_WINDOW]; norm_num
      constructor <;>
        simp [start_stream, driverStartup, ModelPool.acquire, hav, hng]
  | cons r as =>
      constructor <;>
        simp [start_stream, driverStartup, ModelPool.acquire, hav]

theorem startMany_all_started (sids : List Nat) :
    ∀ mgr : StreamManager,
      (startMany mgr sids).1.map StartResult.isStarted
        = List.replicate sids.length true := by
  induction sids with
  | nil => intro mgr; simp [startMany]
  | cons sid rest ih =>
      intro mgr
      rw [startMany, List.map_cons,
        (start_stream_true_started mgr sid).1, List.length_cons,
        List.replicate, ih]
      rfl

/-- C3 (code bug): The claim — and the spec, and the code's own comment at
stream_manager_service.py line 60, which says the 0.2-second wait exists
to catch a thread that failed at once, e.g. for want of a model — intend a
pool-exhausted start to report service-busy and register nothing.  The
code cannot do this: under pool exhaustion the driver blocks inside
`acquire(timeout=5.0)` (pipeline.py line 51), so at the 0.2-second
`is_alive()` check it is still alive (`GRACE_WINDOW < ACQUIRE_TIMEOUT`),
no 503 is raised, and the session IS registered and returned as a
success — whatever the source argument was, since the driver never reaches
the source.  Consequently starting any number of sessions against a fresh
capacity-`C` pool reports success for all of them, never service-busy. -/
theorem start_pool_exhausted_registers (mgr : StreamManager) (sid : Nat)
    (ok : Bool) (tOpen : ℚ) (C : Nat) (sids : List Nat)
    (hempty : mgr.pool.available = []) :
    (start_stream mgr sid ok tOpen).1 = StartResult.started sid
    ∧ (start_stream mgr sid ok tOpen).2.active_streams
        = mgr.active_streams ++ [sid]
    ∧ GRACE_WINDOW < ACQUIRE_TIMEOUT
    ∧ (startMany (initManager C) sids).1.map StartResult.isStarted
        = List.replicate sids.length true := by
  have hlt : GRACE_WINDOW < ACQUIRE_TIMEOUT := by
    rw [ACQUIRE_TIMEOUT, GRACE_WINDOW]; norm_num
  have hng : ¬ ACQUIRE_TIMEOUT ≤ GRACE_WINDOW := not_le.mpr hlt
  refine ⟨?_, ?_, hlt, startMany_all_started sids (initManager C)⟩
  · simp [start_stream, driverStartup, ModelPool.acquire, hempty, hng]
  · simp [start_stream, driverStartup, ModelPool.acquire, hempty, hng]

/-- Witness for C3's failing input: a start against an exhausted
capacity-1 pool (its one set checked out) is registered and reported
started, and three starts against a fresh capacity-2 pool all report
success — where the claim demands two successes and one service-busy. -/
theorem start_pool_exhausted_registers_witness :
    (start_stream ⟨⟨1, [], [0]⟩, [4]⟩ 5 true 0).1 = StartResult.started 5
    ∧ (start_stream ⟨⟨1, [], [0]⟩, [4]⟩ 5 true 0).2.active_streams = [4] ++ [5]
    ∧ GRACE_WINDOW < ACQUIRE_TIMEOUT
    ∧ (startMany (initManager 2) [10, 11, 12]).1.map StartResult.isStarted
        = List.replicate 3 true :=
  start_pool_exhausted_registers ⟨⟨1, [], [0]⟩, [4]⟩ 5 true 0 2 [10, 11, 12] rfl

/-! ## Stage threads as dataflow functions (`app/core/pipeline.py` lines 123-234) -/

/-- Bound of every pipeline queue (pipeline.py lines 44-46 and
stream_manager_service.py line 38: `queue.Queue(maxsize=30)`). -/
def QCAP : Nat := 30

/-- Embeds the reader's `preprocess_queue.put_nowait(frame)` guarded by
`except queue.Full` (pipeline.py lines 142-150): if the queue is below its
bound the frame is appended and the call returns at once; if the queue is
full the frame — the current, newest one — is dropped (`true` in the second
component) and the loop continues.  Either way the call never blocks. -/
def readerPut (q : List Frame) (f : Frame) : List Frame × Bool :=
  if q.length < QCAP then (q ++ [f], false) else (q, true)

/-- One event on the bounded queue between capture and preprocessing: the
reader offers a frame, or the downstream consumer takes one. -/
inductive QueueEvent where
  | offer (f : Frame)
  | take
deriving DecidableEq, Repr

/-- Effect of one queue event. -/
def queueStep (q : List Frame) : QueueEvent → List Frame
  | .offer f => (readerPut q f).1
  | .take => q.tail

/-- Run an arbitrary interleaving of reader offers and consumer takes. -/
def queueRun (q : List Frame) : List QueueEvent → List Frame
  | [] => q
  | e :: es => queueRun (queueStep q e) es

theorem queueStep_le (q : List Frame) (e : QueueEvent) (h : q.length ≤ QCAP) :
    (queueStep q e).length ≤ QCAP := by
  cases e with
  | offer f =>
      simp only [queueStep, readerPut]
      split
      · simpa using (by omega : q.length + 1 ≤ QCAP)
      · exact h
  | take =>
      simp only [queueStep, List.length_tail]
      omega

/-- C5: Under every interleaving of reader enqueues and downstream
dequeues, the capture-to-preprocess queue never exceeds its bound of 30;
and whenever the queue is full, the non-blocking enqueue drops exactly the
current (newest) frame, leaving the queue unchanged, so the capture thread
never blocks on enqueue. -/
theorem reader_nonblocking_drop (evs : List QueueEvent) (q qf : List Frame)
    (f : Frame) (hq : q.length ≤ QCAP) (hqf : QCAP ≤ qf.length) :
    (queueRun q evs).length ≤ QCAP ∧ readerPut qf f = (qf, true) := by
  constructor
  · induction evs generalizing q with
    | nil => simpa [queueRun] using hq
    | cons e es ih => exact ih (queueStep q e) (queueStep_le q e hq)
  · simp only [readerPut]
    split
    · omega
    · rfl

/-- Witness for C5: a short concrete interleaving from the empty queue, and
a saturated queue of 30 frames rejecting frame 99 unchanged. -/
theorem reader_nonblocking_drop_witness :
    (queueRun [] [QueueEvent.offer 1, QueueEvent.offer 2, QueueEvent.take,
        QueueEvent.offer 3]).length ≤ QCAP
    ∧ readerPut (List.range QCAP) 99 = (List.range QCAP, true) :=
  reader_nonblocking_drop
    [QueueEvent.offer 1, QueueEvent.offer 2, QueueEvent.take, QueueEvent.offer 3]
    [] (List.range QCAP) 99 (by decide) (by decide)

/-- A detection produced by the detect stage: bounding box and the
landmark points extracted from the result dictionary. -/
structure Detection where
  landmarks : List (ℚ × ℚ)
  bbox : List ℚ
deriving DecidableEq, Repr

/-- Embeds one run of `_reader_thread` over a finite source (pipeline.py
lines 123-154) as the sequence of items that enter `preprocess_queue`:
each read frame is offered with the non-blocking put — `preFull k` tells
whether the queue was full at enqueue attempt `k` (the consumer runs
concurrently), in which case the frame is dropped; at end-of-file the loop
breaks and the sentinel `None` is enqueued with a blocking put (line 153),
so it always enters the queue. -/
def readerRun (preFull : Nat → Bool) : Nat → List Frame → List (Option Frame)
  | _, [] => [none]
  | k, f :: fs =>
      if preFull k then readerRun preFull (k + 1) fs
      else some f :: readerRun preFull (k + 1) fs

/-- Embeds `_preprocessor_thread` (pipeline.py lines 156-167) as a function
from the contents of `preprocess_queue` to the items it puts into
`inference_queue`: frames are forwarded unchanged with blocking puts; on
the sentinel it forwards the sentinel once and breaks. -/
def preprocessorRun : List (Option Frame) → List (Option Frame)
  | [] => []
  | none :: _ => [none]
  | some f :: rest => some f :: preprocessorRun rest

/-- Embeds `_inference_thread` (pipeline.py lines 169-184) as a function
from the contents of `inference_queue` to the items it puts into
`postprocess_queue`: each frame is paired with its detections
(`det_model.predict`, abstracted as `detect`) and forwarded with a
blocking put; on the sentinel it forwards the sentinel once and breaks. -/
def inferenceRun (detect : Frame → List Detection) :
    List (Option Frame) → List (Option (Frame × List Detection))
  | [] => []
  | none :: _ => [none]
  | some f :: rest => some (f, detect f) :: inferenceRun detect rest

/-- Embeds `_postprocessor_thread` (pipeline.py lines 186-234) as the
sequence of items that successfully enter the session's output queue.  The
annotated, encoded frame is published with `put_nowait`, dropped on
`queue.Full` (lines 221-224); after the loop breaks on the sentinel, the
sentinel itself is offered with `put_nowait` and likewise silently dropped
when the output queue is full (lines 230-233).  `qlen` is the current
output-queue occupancy and `drain k` how many items the feed consumer
removed before attempt `k`; the queue is full when occupancy reaches
`QCAP`. -/
def postRun (drain : Nat → Nat) :
    Nat → Nat → List (Option (Frame × List Detection)) → List (Option Frame)
  | k, qlen, [] =>
      if qlen - drain k < QCAP then [none] else []
  | k, qlen, none :: _ =>
      if qlen - drain k < QCAP then [none] else []
  | k, qlen, some fd :: rest =>
      if qlen - drain k < QCAP then
        some fd.1 :: postRun drain (k + 1) (qlen - drain k + 1) rest
      else postRun drain (k + 1) (qlen - drain k) rest

/-- Embeds the consumer loop of `StreamManagerService.get_stream_feed`
(stream_manager_service.py lines 98-104) over the published items: it
yields each byte-frame and terminates its sequence at the sentinel. -/
def feedRun : List (Option Frame) → List Frame
  | [] => []
  | none :: _ => []
  | some f :: rest => f :: feedRun rest

/-- Number of sentinels in a queue-item sequence. -/
def sentinelCount {α : Type} (l : List (Option α)) : Nat :=
  l.countP fun x => x.isNone

/-- End-to-end published output of one session: what reaches the session's
output queue, over the reader's enqueue-fullness oracle `preFull`, the
detector `detect`, the feed consumer's drain schedule `drain` and initial
output-queue occupancy `q0`. -/
def pipelinePublished (preFull : Nat → Bool) (detect : Frame → List Detection)
    (drain : Nat → Nat) (q0 : Nat) (src : List Frame) : List (Option Frame) :=
  postRun drain 0 q0 (inferenceRun detect (preprocessorRun (readerRun preFull 0 src)))

theorem sentinelCount_map_some {α : Type} (xs : List α) :
    sentinelCount (xs.map some) = 0 := by
  simp [sentinelCount, List.countP_eq_zero]

theorem map_fst_map_pair (detect : Frame → List Detection) (l : List Frame) :
    (l.map fun f => (f, detect f)).map Prod.fst = l := by
  induction l with
  | nil => rfl
  | cons a l ih => simpa using ih

theorem sentinelCount_canonical {α : Type} (xs : List α) :
    sentinelCount (xs.map some ++ [none]) = 1 := by
  have h := sentinelCount_map_some xs
  simp only [sentinelCount, List.countP_append] at h ⊢
  simp [h]

theorem filterMap_id_map_some {α : Type} (xs : List α) :
    (xs.map some).filterMap id = xs := by
  induction xs with
  | nil => rfl
  | cons x xs ih => simp [List.filterMap_cons, ih]

theorem readerRun_canonical (preFull : Nat → Bool) (src : List Frame) :
    ∀ k : Nat, ∃ xs : List Frame,
      readerRun preFull k src = xs.map some ++ [none] ∧ xs.Sublist src := by
  induction src with
  | nil => intro k; exact ⟨[], rfl, List.Sublist.refl []⟩
  | cons f fs ih =>
      intro k
      obtain ⟨xs, hform, hsub⟩ := ih (k + 1)
      by_cases hfull : preFull k
      · exact ⟨xs, by simp [readerRun, hfull, hform], hsub.cons f⟩
      · exact ⟨f :: xs, by simp [readerRun, hfull, hform], hsub.cons₂ f⟩

theorem preprocessorRun_canonical (xs : List Frame) :
    preprocessorRun (xs.map some ++ [none]) = xs.map some ++ [none] := by
  induction xs with
  | nil => rfl
  | cons x xs ih => simp [preprocessorRun, ih]

theorem inferenceRun_canonical (detect : Frame → List Detection) (xs : List Frame) :
    inferenceRun detect (xs.map some ++ [none])
      = (xs.map fun f => (f, detect f)).map some ++ [none] := by
  induction xs with
  | nil => rfl
  | cons x xs ih => simp [inferenceRun, ih]

theorem postRun_canonical (drain : Nat → Nat)
    (zs : List (Frame × List Detection)) :
    ∀ k qlen : Nat, ∃ ws : List Frame,
      (postRun drain k qlen (zs.map some ++ [none]) = ws.map some ++ [none]
        ∨ postRun drain k qlen (zs.map some ++ [none]) = ws.map some)
      ∧ ws.Sublist (zs.map Prod.fst) := by
  induction zs with
  | nil =>
      intro k qlen
      refine ⟨[], ?_, List.Sublist.refl []⟩
      by_cases hfull : qlen - drain k < QCAP
      · exact Or.inl (by simp [postRun, hfull])
      · exact Or.inr (by simp [postRun, hfull])
  | cons z zs ih =>
      intro k qlen
      by_cases hfull : qlen - drain k < QCAP
      · obtain ⟨ws, hform, hsub⟩ := ih (k + 1) (qlen - drain k + 1)
        refine ⟨z.1 :: ws, ?_, hsub.cons₂ z.1⟩
        cases hform with
        | inl h => exact Or.inl (by simp [postRun, hfull, h])
        | inr h => exact Or.inr (by simp [postRun, hfull, h])
      · obtain ⟨ws, hform, hsub⟩ := ih (k + 1) (qlen - drain k)
        refine ⟨ws, ?_, hsub.cons z.1⟩
        cases hform with
        | inl h => exact Or.inl (by simp [postRun, hfull, h])
        | inr h => exact Or.inr (by simp [postRun, hfull, h])

theorem feedRun_stops_at_sentinel (xs : List Frame) (rest : List (Option Frame)) :
    feedRun (xs.map some ++ none :: rest) = xs := by
  induction xs with
  | nil => rfl
  | cons x xs ih => simp [feedRun, ih]

/-- C4 (amended): On teardown of a finite source, the sentinel enters each
intermediate queue exactly once — capture enqueues it once after EOF with a
blocking put, and the buffer and detect stages each forward it once with
blocking puts — but on the final hop it is offered to the session's output
queue with a non-blocking put, so it reaches the output queue at most once
(and not at all when the output queue is full at that moment); a feed
consumer that reaches the sentinel terminates its sequence. -/
theorem sentinel_propagation (preFull : Nat → Bool)
    (detect : Frame → List Detection) (drain : Nat → Nat) (q0 : Nat)
    (src xs : List Frame) (rest : List (Option Frame)) :
    sentinelCount (readerRun preFull 0 src) = 1
    ∧ sentinelCount (preprocessorRun (readerRun preFull 0 src)) = 1
    ∧ sentinelCount (inferenceRun detect (preprocessorRun (readerRun preFull 0 src))) = 1
    ∧ sentinelCount (pipelinePublished preFull detect drain q0 src) ≤ 1
    ∧ feedRun (xs.map some ++ none :: rest) = xs := by
  obtain ⟨ys, hr, _⟩ := readerRun_canonical preFull src 0
  refine ⟨?_, ?_, ?_, ?_, feedRun_stops_at_sentinel xs rest⟩
  · rw [hr]; exact sentinelCount_canonical ys
  · rw [hr, preprocessorRun_canonical]; exact sentinelCount_canonical ys
  · rw [hr, preprocessorRun_canonical, inferenceRun_canonical]
    exact sentinelCount_canonical _
  · obtain ⟨ws, hform, _⟩ :=
      postRun_canonical drain (ys.map fun f => (f, detect f)) 0 q0
    rw [pipelinePublished, hr, preprocessorRun_canonical, inferenceRun_canonical]
    cases hform with
    | inl h => rw [h, sentinelCount_canonical]
    | inr h => rw [h, sentinelCount_map_some]; omega

/-- C4 counterexample: a 31-frame finite source with no feed consumer
(`drain = 0`).  The first 30 published frames fill the output queue, frame
30 and then the sentinel are both dropped by `put_nowait` on `queue.Full`
(pipeline.py lines 221-224 and 230-233), so the sentinel never reaches the
session's output queue — refuting "it reaches the session's output queue
exactly once". -/
theorem sentinel_dropped_cex :
    sentinelCount (pipelinePublished (fun _ => false) (fun _ => [])
      (fun _ => 0) 0 (List.range 31)) = 0 := by decide

/-- C6: Within one session — for every enqueue-fullness oracle, detector,
feed-drain schedule and initial occupancy — the sequence of frames
published to the output queue is a subsequence of the sequence of frames
read by capture: never reordered, never duplicated, only skipped. -/
theorem frames_published_subsequence (preFull : Nat → Bool)
    (detect : Frame → List Detection) (drain : Nat → Nat) (q0 : Nat)
    (src : List Frame) :
    ((pipelinePublished preFull detect drain q0 src).filterMap id).Sublist src := by
  obtain ⟨ys, hr, hysub⟩ := readerRun_canonical preFull src 0
  obtain ⟨ws, hform, hwsub⟩ :=
    postRun_canonical drain (ys.map fun f => (f, detect f)) 0 q0
  rw [pipelinePublished, hr, preprocessorRun_canonical, inferenceRun_canonical]
  have hmap : (ys.map fun f => (f, detect f)).map Prod.fst = ys :=
    map_fst_map_pair detect ys
  have hws : ws.Sublist ys := by rw [hmap] at hwsub; exact hwsub
  have hfin : ws.Sublist src := hws.trans hysub
  cases hform with
  | inl h =>
      rw [h, List.filterMap_append]
      simpa [filterMap_id_map_some, List.filterMap_cons] using hfin
  | inr h =>
      rw [h, filterMap_id_map_some]
      exact hfin

/-! ## Face alignment (`app/core/image_utils.py` lines 36-91) -/

/-- A 2x3 affine transform matrix with rational entries. -/
structure Mat23 where
  a : ℚ
  b : ℚ
  c : ℚ
  d : ℚ
  e : ℚ
  f : ℚ
deriving DecidableEq, Repr

/-- The all-zero 2x3 matrix (`np.zeros((2, 3))`). -/
def zero23 : Mat23 := ⟨0, 0, 0, 0, 0, 0⟩

/-- An input image: shape only (the pixel contents are opaque here). -/
structure Img where
  rows : Nat
  cols : Nat
  channels : Nat
deriving DecidableEq, Repr

/-- An image returned by `align_and_crop`: either the all-zero
`np.zeros((n, n, 3))` fallback or the `cv2.warpAffine` output of
destination size `(n, n)` with the input image's channel count. -/
inductive OutImage where
  | zeros (n : Nat)
  | warp (M : Mat23) (n : Nat) (channels : Nat)
deriving DecidableEq, Repr

/-- Row count of a returned image. -/
def OutImage.rows : OutImage → Nat
  | .zeros n => n
  | .warp _ n _ => n

/-- Column count of a returned image. -/
def OutImage.cols : OutImage → Nat
  | .zeros n => n
  | .warp _ n _ => n

/-- Element count (`ndarray.size`) of a returned image. -/
def OutImage.size : OutImage → Nat
  | .zeros n => n * n * 3
  | .warp _ n c => n * n * c

/-- The ArcFace reference landmarks `_arcface_ref_kps` (image_utils.py
lines 52-61), float literals embedded as exact rationals. -/
def arcfaceRefKps : List (ℚ × ℚ) :=
  [(382946 / 10000, 516963 / 10000),
   (735318 / 10000, 515014 / 10000),
   (560252 / 10000, 717366 / 10000),
   (415493 / 10000, 923655 / 10000),
   (707299 / 10000, 922041 / 10000)]

/-- The ratio/offset selection of image_utils.py lines 70-75: the 112
branch is tested first, so it also captures sizes divisible by both 112
and 128; the 128 branch adds the fixed `8 * ratio` horizontal offset. -/
def alignRatioDiff (image_size : Nat) : ℚ × ℚ :=
  if image_size % 112 = 0 then ((image_size : ℚ) / 112, 0)
  else ((image_size : ℚ) / 128, 8 * ((image_size : ℚ) / 128))

/-- The scaled-and-shifted reference points `dst` (image_utils.py lines
77-79): every reference point is scaled by the ratio and the horizontal
offset is added to its x coordinate. -/
def alignDst (image_size : Nat) : List (ℚ × ℚ) :=
  arcfaceRefKps.map fun p =>
    (p.1 * (alignRatioDiff image_size).1 + (alignRatioDiff image_size).2,
     p.2 * (alignRatioDiff image_size).1)

/-- Abstraction of `cv2.estimateAffinePartial2D` over source landmarks and
destination points: optionally a transform matrix together with the inlier
mask; `none` models a failed estimate (both returned as `None`). -/
abbrev EstimateFn := List (ℚ × ℚ) → List (ℚ × ℚ) → Option (Mat23 × List Bool)

/-- Embeds `align_and_crop` (image_utils.py lines 36-91).  The two
assertions — exactly 5 landmarks, and the size a multiple of 112 or of
128 — are modelled as `none` (an `AssertionError` escapes the function).
Otherwise the destination points are computed, the partial affine
transform is estimated, and if the inliers are missing or not all set the
all-zero image of the target size is returned with the zero matrix
(lines 84-86); on success `cv2.warpAffine` produces an image of exactly
the target size (line 89). -/
def align_and_crop (estimate : EstimateFn) (img : Img)
    (landmarks : List (ℚ × ℚ)) (image_size : Nat := 112) :
    Option (OutImage × Mat23) :=
  if landmarks.length = 5 then
    if image_size % 112 = 0 ∨ image_size % 128 = 0 then
      match estimate landmarks (alignDst image_size) with
      | none => some (OutImage.zeros image_size, zero23)
      | some (M, inliers) =>
          if inliers.all fun b => b then
            some (OutImage.warp M image_size img.channels, M)
          else
            some (OutImage.zeros image_size, zero23)
    else none
  else none

/-- C7 (amended): For 5-landmark input, a target size that is a multiple
of 112 gets ratio `size/112` and no horizontal offset on the scaled
reference points; a target size that is a multiple of 128 *and not of
112* gets ratio `size/128` and the fixed `8 * ratio` horizontal offset
(the code tests the 112 branch first, so sizes divisible by both — the
multiples of 896 — take the 112 branch); a degenerate alignment (failed
estimate, or inlier support not total) yields the all-zero image of the
target size instead of an error; and every returned image has exactly the
target size. -/
theorem align_and_crop_spec (n : Nat) (img : Img) (lms : List (ℚ × ℚ))
    (e : EstimateFn) :
    (n % 112 = 0 →
      alignDst n = arcfaceRefKps.map fun p =>
        (p.1 * ((n : ℚ) / 112), p.2 * ((n : ℚ) / 112)))
    ∧ (n % 128 = 0 → ¬ n % 112 = 0 →
      alignDst n = arcfaceRefKps.map fun p =>
        (p.1 * ((n : ℚ) / 128) + 8 * ((n : ℚ) / 128), p.2 * ((n : ℚ) / 128)))
    ∧ (lms.length = 5 → (n % 112 = 0 ∨ n % 128 = 0) →
      e lms (alignDst n) = none →
      align_and_crop e img lms n = some (OutImage.zeros n, zero23))
    ∧ (∀ M inliers, lms.length = 5 → (n % 112 = 0 ∨ n % 128 = 0) →
      e lms (alignDst n) = some (M, inliers) →
      (inliers.all fun b => b) = false →
      align_and_crop e img lms n = some (OutImage.zeros n, zero23))
    ∧ (∀ imgO M, align_and_crop e img lms n = some (imgO, M) →
      imgO.rows = n ∧ imgO.cols = n) := by
  refine ⟨?_, ?_, ?_, ?_, ?_⟩
  · intro h112
    simp [alignDst, alignRatioDiff, h112]
  · intro h128 h112
    simp [alignDst, alignRatioDiff, h112]
  · intro h5 hsz hest
    simp [align_and_crop, h5, hsz, hest]
  · intro M inliers h5 hsz hest hinl
    simp [align_and_crop, h5, hsz, hest, hinl]
  · intro imgO M hres
    by_cases h5 : lms.length = 5
    · by_cases hsz : n % 112 = 0 ∨ n % 128 = 0
      · rw [align_and_crop, if_pos h5, if_pos hsz] at hres
        cases hest : e lms (alignDst n) with
        | none =>
            rw [hest] at hres
            cases hres
            exact ⟨rfl, rfl⟩
        | some p =>
            rw [hest] at hres
            by_cases hinl : p.2.all fun b => b
            · simp only [hinl, if_true] at hres
              cases hres
              exact ⟨rfl, rfl⟩
            · simp only [eq_false_of_ne_true hinl, if_false,
                Bool.false_eq_true] at hres
              cases hres
              exact ⟨rfl, rfl⟩
      · rw [align_and_crop, if_pos h5, if_neg hsz] at hres
        exact absurd hres (by simp)
    · rw [align_and_crop, if_neg h5] at hres
      exact absurd hres (by simp)

/-- Witness for the amended C7: target 224 takes the 112 branch, target
128 takes the offset branch, and a failed estimate at target 112 over
concrete landmarks returns the all-zero 112-image and zero matrix. -/
theorem align_and_crop_spec_witness :
    (alignDst 224 = arcfaceRefKps.map fun p =>
        (p.1 * ((224 : ℚ) / 112), p.2 * ((224 : ℚ) / 112)))
    ∧ (alignDst 128 = arcfaceRefKps.map fun p =>
        (p.1 * ((128 : ℚ) / 128) + 8 * ((128 : ℚ) / 128), p.2 * ((128 : ℚ) / 128)))
    ∧ align_and_crop (fun _ _ => none) ⟨480, 640, 3⟩
        [(0, 0), (1, 0), (0, 1), (1, 1), (2, 2)] 112
        = some (OutImage.zeros 112, zero23)
    ∧ (OutImage.zeros 112).rows = 112 :=
  ⟨(align_and_crop_spec 224 ⟨480, 640, 3⟩ [] (fun _ _ => none)).1 (by decide),
   (align_and_crop_spec 128 ⟨480, 640, 3⟩ [] (fun _ _ => none)).2.1
     (by decide) (by decide),
   (align_and_crop_spec 112 ⟨480, 640, 3⟩
       [(0, 0), (1, 0), (0, 1), (1, 1), (2, 2)] (fun _ _ => none)).2.2.1
     (by decide) (Or.inl (by decide)) rfl,
   ((align_and_crop_spec 112 ⟨480, 640, 3⟩
       [(0, 0), (1, 0), (0, 1), (1, 1), (2, 2)] (fun _ _ => none)).2.2.2.2
     (OutImage.zeros 112) zero23
     ((align_and_crop_spec 112 ⟨480, 640, 3⟩
         [(0, 0), (1, 0), (0, 1), (1, 1), (2, 2)] (fun _ _ => none)).2.2.1
       (by decide) (Or.inl (by decide)) rfl)).1⟩

/-- C7 counterexample: 896 is a multiple of 128, yet the code applies no
horizontal offset (the 112 branch fires first, since 896 is also a
multiple of 112), while the claim's 128-multiple clause demands the
non-zero offset `8 * (896 / 128) = 56`. -/
theorem align_offset_claim_cex :
    896 % 128 = 0
    ∧ (alignRatioDiff 896).2 = 0
    ∧ (alignRatioDiff 896).2 ≠ 8 * ((896 : ℚ) / 128) := by
  refine ⟨by norm_num, ?_, ?_⟩
  · simp [alignRatioDiff]
  · simp only [alignRatioDiff]
    norm_num

/-! ## Recognize+render detection filtering (`app/core/pipeline.py` lines 196-204) -/

/-- Embeds the per-frame detection loop of `_postprocessor_thread`
(pipeline.py lines 197-204): for each detection, extract the landmarks;
only when there are exactly 5 is `align_and_crop` invoked (with the
default target size 112), and only crops with a positive element count are
kept together with their detection metadata, in order. -/
def processDetections (e : EstimateFn) (img : Img) :
    List Detection → List OutImage × List Detection
  | [] => ([], [])
  | d :: rest =>
      if d.landmarks.length = 5 then
        match align_and_crop e img d.landmarks 112 with
        | some (a, _) =>
            if 0 < a.size then
              ((processDetections e img rest).1.cons a,
               (processDetections e img rest).2.cons d)
            else processDetections e img rest
        | none => processDetections e img rest
      else processDetections e img rest

/-- The landmark lists with which the loop actually invokes
`align_and_crop`, in call order. -/
def alignCallArgs : List Detection → List (List (ℚ × ℚ))
  | [] => []
  | d :: rest =>
      if d.landmarks.length = 5 then d.landmarks :: alignCallArgs rest
      else alignCallArgs rest

theorem alignCallArgs_length (dets : List Detection) (l : List (ℚ × ℚ))
    (hl : l ∈ alignCallArgs dets) : l.length = 5 := by
  induction dets with
  | nil => cases hl
  | cons d rest ih =>
      by_cases h5 : d.landmarks.length = 5
      · rw [alignCallArgs, if_pos h5] at hl
        cases hl with
        | head => exact h5
        | tail _ hmem => exact ih hmem
      · rw [alignCallArgs, if_neg h5] at hl
        exact ih hl

/-- C8: Detections whose landmark count differs from 5 are excluded
without terminating the stage and without affecting the other detections
of the frame (processing a detection list equals processing its 5-landmark
sublist, and every kept metadata entry has 5 landmarks); consequently
`align_and_crop` is only ever invoked with exactly 5 landmarks, so its
landmark-count assertion can never fire on a pipeline call (the call
result is always `some`). -/
theorem postprocessor_skips_non5 (e : EstimateFn) (img : Img)
    (dets : List Detection) (l : List (ℚ × ℚ))
    (hl : l ∈ alignCallArgs dets) :
    processDetections e img dets
        = processDetections e img (dets.filter fun d => d.landmarks.length == 5)
    ∧ ((processDetections e img dets).2.all fun d => d.landmarks.length == 5) = true
    ∧ l.length = 5
    ∧ (align_and_crop e img l 112).isSome = true := by
  refine ⟨?_, ?_, ?_, ?_⟩
  · clear hl
    induction dets with
    | nil => rfl
    | cons d rest ih =>
        by_cases h5 : d.landmarks.length = 5
        · rw [processDetections, if_pos h5, List.filter_cons,
            if_pos (by simpa using h5), processDetections, if_pos h5, ih]
        · rw [processDetections, if_neg h5, List.filter_cons,
            if_neg (by simpa using h5), ih]
  · clear hl
    induction dets with
    | nil => rfl
    | cons d rest ih =>
        by_cases h5 : d.landmarks.length = 5
        · rw [processDetections, if_pos h5]
          cases hres : align_and_crop e img d.landmarks 112 with
          | none => exact ih
          | some p =>
              by_cases hsz : 0 < p.1.size
              · simpa [hres, hsz, h5] using ih
              · simpa [hres, hsz] using ih
        · rw [processDetections, if_neg h5]
          exact ih
  · exact alignCallArgs_length dets l hl
  · have h5 : l.length = 5 := alignCallArgs_length dets l hl
    rw [align_and_crop, if_pos h5, if_pos (Or.inl rfl)]
    cases hest : e l (alignDst 112) with
    | none => rfl
    | some p =>
        by_cases hinl : p.2.all fun b => b
        · simp [hinl]
        · simp [hinl]

/-- Witness for C8 on a frame with one 3-landmark and one 5-landmark
detection: the 3-landmark one is filtered away, the kept metadata all have
5 landmarks, and the one alignment call is made with 5 landmarks and
returns a value. -/
theorem postprocessor_skips_non5_witness :
    processDetections (fun _ _ => none) ⟨480, 640, 3⟩
        [⟨[(0, 0), (1, 1), (2, 2)], [0, 0, 10, 10]⟩,
         ⟨[(0, 0), (1, 0), (0, 1), (1, 1), (2, 2)], [1, 2, 3, 4]⟩]
      = processDetections (fun _ _ => none) ⟨480, 640, 3⟩
          (List.filter (fun d => d.landmarks.length == 5)
            [⟨[(0, 0), (1, 1), (2, 2)], [0, 0, 10, 10]⟩,
             ⟨[(0, 0), (1, 0), (0, 1), (1, 1), (2, 2)], [1, 2, 3, 4]⟩])
    ∧ ((processDetections (fun _ _ => none) ⟨480, 640, 3⟩
          [⟨[(0, 0), (1, 1), (2, 2)], [0, 0, 10, 10]⟩,
           ⟨[(0, 0), (1, 0), (0, 1), (1, 1), (2, 2)], [1, 2, 3, 4]⟩]).2.all
        fun d => d.landmarks.length == 5) = true
    ∧ ([(0, 0), (1, 0), (0, 1), (1, 1), (2, 2)] : List (ℚ × ℚ)).length = 5
    ∧ (align_and_crop (fun _ _ => none) ⟨480, 640, 3⟩
        [(0, 0), (1, 0), (0, 1), (1, 1), (2, 2)] 112).isSome = true :=
  postprocessor_skips_non5 (fun _ _ => none) ⟨480, 640, 3⟩
    [⟨[(0, 0), (1, 1), (2, 2)], [0, 0, 10, 10]⟩,
     ⟨[(0, 0), (1, 0), (0, 1), (1, 1), (2, 2)], [1, 2, 3, 4]⟩]
    [(0, 0), (1, 0), (0, 1), (1, 1), (2, 2)] (by decide)

end FaceRec
